import Mathlib

/-!
Verification of the solvere recursive DNS resolver core against its
specification.  The development shallowly embeds the Go sources:

* `Solvere.Nsec`     — nsec.go (NSEC/NSEC3 denial-of-existence proofs)
* `Solvere.Cache`    — cache.go (question/answer cache, minTTL)
* `Solvere.Resolver` — resolver.go and dnssec.go (iterative lookup loop,
                       bailiwick check, alias chasing, DS checking)

Machine integers are modelled as Nat/Int (Go uint32 values stay below
2^32 in all inputs considered; Go int64 division is truncated division,
modelled with Int.tdiv).  Go strings are modelled as List Char so that
all operations reduce in the kernel.
-/

set_option maxRecDepth 40000

namespace Solvere

/-- DNS record type codes, as in the miekg dns package. -/
def TypeA : Nat := 1
def TypeNS : Nat := 2
def TypeCNAME : Nat := 5
def TypeSOA : Nat := 6
def TypeMX : Nat := 15
def TypeTXT : Nat := 16
def TypeAAAA : Nat := 28
def TypeDNAME : Nat := 39
def TypeOPT : Nat := 41
def TypeDS : Nat := 43
def TypeRRSIG : Nat := 46
def TypeNSEC : Nat := 47
def TypeDNSKEY : Nat := 48
def TypeNSEC3 : Nat := 50
def TypeCAA : Nat := 257

namespace Nsec

/-!
Embedding of nsec.go.  Domain names are represented at label
granularity: `DName` is the list of labels of the dotted name, so that
`dns.Split` peeling one label at a time becomes `List.drop`, and the
wildcard `*.<ce>` built by the code with Sprintf becomes `"*" :: ce`.

The NSEC/NSEC3 `dns.Denialer` interface (`Match`, `Cover`) is external
library code (hashing); each denial record carries the finite sets of
names it matches and covers, plus its type bitmap.
-/

/-- A domain name as its list of labels. -/
abbrev DName := List String

/-- A DNS question as used by nsec.go: name and query type. -/
structure Question where
  name : DName
  qtype : Nat
deriving DecidableEq, Repr

/-- An NSEC/NSEC3 record abstracted through the Denialer interface:
the sets of names it matches and covers, and its type bitmap. -/
structure DenialRR where
  matchSet : List DName
  coverSet : List DName
  typeBitMap : List Nat
deriving DecidableEq, Repr

/-- Denialer.Match for one record. -/
def DenialRR.rmatch (rr : DenialRR) (n : DName) : Bool := rr.matchSet.contains n

/-- Denialer.Cover for one record. -/
def DenialRR.rcover (rr : DenialRR) (n : DName) : Bool := rr.coverSet.contains n

/-- The error values of nsec.go. -/
inductive NsecError where
  | Mismatch
  | TypeExists
  | MultipleCoverage
  | MissingCoverage
  | BadDelegation
  | NSMissing
deriving DecidableEq, Repr

/-- typesSet: does any element of set occur among the given types. -/
def typesSet (set : List Nat) (types : List Nat) : Bool :=
  set.any (fun t => types.contains t)

/-- Auxiliary loop of findClosestEncloser: the outer loop over the
label indices produced by dns.Split, returning the closest encloser
and next closer on the first matching suffix. -/
def findClosestEncloserAux (name : DName) (nsec : List DenialRR) :
    List Nat → Option (DName × DName)
  | [] => none
  | i :: rest =>
    let z := name.drop i
    if nsec.any (fun rr => rr.rmatch z) then
      some (z, if i = 0 then name else name.drop (i - 1))
    else
      findClosestEncloserAux name nsec rest

/-- findClosestEncloser from nsec.go; returns none where the Go code
returns the pair of empty strings.  At label granularity dns.Split
yields one index per label, so the loop runs over 0..len-1. -/
def findClosestEncloser (name : DName) (nsec : List DenialRR) : Option (DName × DName) :=
  findClosestEncloserAux name nsec (List.range name.length)

/-- Loop of findMatching.  The accumulator mirrors the Go slice
`types`, which is initialized to the NON-nil empty slice `[]uint16{}`;
`some` is a non-nil slice, `none` is nil.  The nil test `types != nil`
therefore already succeeds before any record has matched. -/
def findMatchingAux (name : DName) : Option (List Nat) → List DenialRR →
    Except NsecError (List Nat)
  | types, [] =>
    match types with
    | none => .error .MissingCoverage
    | some ts => .ok ts
  | types, rr :: rest =>
    if rr.rmatch name then
      match types with
      | some _ => .error .MultipleCoverage
      | none => findMatchingAux name (some rr.typeBitMap) rest
    else
      findMatchingAux name types rest

/-- findMatching from nsec.go (`types := []uint16{}` is non-nil). -/
def findMatching (name : DName) (nsec : List DenialRR) : Except NsecError (List Nat) :=
  findMatchingAux name (some []) nsec

/-- Loop of findCoverer, same accumulator convention as findMatchingAux. -/
def findCovererAux (name : DName) : Option (List Nat) → List DenialRR →
    Except NsecError (List Nat)
  | types, [] =>
    match types with
    | none => .error .MissingCoverage
    | some ts => .ok ts
  | types, rr :: rest =>
    if rr.rcover name then
      match types with
      | some _ => .error .MultipleCoverage
      | none => findCovererAux name (some rr.typeBitMap) rest
    else
      findCovererAux name types rest

/-- findCoverer from nsec.go (`types := []uint16{}` is non-nil). -/
def findCoverer (name : DName) (nsec : List DenialRR) : Except NsecError (List Nat) :=
  findCovererAux name (some []) nsec

/-- verifyNameError from nsec.go (RFC 5155 Section 8.4 path). -/
def verifyNameError (q : Question) (nsec : List DenialRR) : Except NsecError Unit :=
  match findClosestEncloser q.name nsec with
  | none => .error .MissingCoverage
  | some (ce, _) =>
    match findMatching q.name nsec with
    | .error e => .error e
    | .ok _ =>
      match findCoverer ("*" :: ce) nsec with
      | .error e => .error e
      | .ok _ => .ok ()

/-- verifyNODATA from nsec.go (RFC 5155 Sections 8.5, 8.6, 8.7). -/
def verifyNODATA (q : Question) (nsec : List DenialRR) : Except NsecError Unit :=
  match findMatching q.name nsec with
  | .ok types =>
    if typesSet types [q.qtype, TypeCNAME] then .error .TypeExists
    else if q.name.head? = some "*" then
      match findClosestEncloser q.name nsec with
      | none => .error .MissingCoverage
      | some (ce, _) =>
        match findMatching ("*" :: ce) nsec with
        | .error e => .error e
        | .ok matchTypes =>
          if typesSet matchTypes [q.qtype, TypeCNAME] then .error .TypeExists
          else .ok ()
    else .ok ()
  | .error e =>
    if q.qtype ≠ TypeDS then .error e
    else
      match findClosestEncloser q.name nsec with
      | none => .error .MissingCoverage
      | some (_, nc) =>
        match findCoverer nc nsec with
        | .error e2 => .error e2
        | .ok _ => .ok ()

/-- verifyDelegation from nsec.go (RFC 5155 Section 8.9). -/
def verifyDelegation (delegation : DName) (nsec : List DenialRR) : Except NsecError Unit :=
  match findMatching delegation nsec with
  | .error _ =>
    match findClosestEncloser delegation nsec with
    | none => .error .MissingCoverage
    | some (_, nc) =>
      match findCoverer nc nsec with
      | .error e => .error e
      | .ok _ => .ok ()
  | .ok types =>
    if ¬ typesSet types [TypeNS] then .error .NSMissing
    else if typesSet types [TypeDS, TypeSOA] then .error .BadDelegation
    else .ok ()

/-!
Concrete inputs for claims C1 and C2, mirroring the RFC-valid denial
set of TestVerifyNameError in nsec_test.go (an NSEC3 record matching
the closest encloser org., one covering the next closer, one covering
the wildcard).
-/

/-- the question easdasdd1q2e2d2w.org. type A from the repository test. -/
def qOrg : Question := ⟨["easdasdd1q2e2d2w", "org"], TypeA⟩

/-- NSEC3 record matching the closest encloser org. . -/
def recCE : DenialRR :=
  ⟨[["org"]], [], [TypeNS, TypeSOA, TypeRRSIG, TypeDNSKEY]⟩

/-- NSEC3 record covering the next closer name. -/
def recNC : DenialRR :=
  ⟨[], [["easdasdd1q2e2d2w", "org"]], [TypeNS, TypeDS, TypeRRSIG]⟩

/-- NSEC3 record covering the wildcard of the closest encloser. -/
def recWC : DenialRR :=
  ⟨[], [["*", "org"]], [TypeNS, TypeDS, TypeRRSIG]⟩

/-- the RFC-valid NXDOMAIN denial set for qOrg. -/
def orgDenialSet : List DenialRR := [recCE, recNC, recWC]

/-- a single record matching the name b.com. with bitmap {NS}. -/
def recMatchB : DenialRR := ⟨[["b", "com"]], [], [TypeNS]⟩

end Nsec

namespace Cache

/-!
Embedding of cache.go.  A resource record is reduced to the fields the
cache consults: type, TTL and (for RRSIG) the Expiration timestamp.
The clock is passed explicitly as the current Unix time in seconds
(clk.Now().UTC().Unix() in the source).  The sha1 digest of
(type bytes || name bytes) keying the map is injective on the inputs
considered, so the key is modelled as the (type, name) pair itself.
-/

/-- Go string as a list of characters. -/
abbrev Str := List Char

/-- A resource record as seen by the cache: header type, header TTL,
and the RRSIG Expiration field (uint32 Unix seconds). -/
structure RRec where
  rrtype : Nat
  ttl : Nat
  expiration : Nat := 0
deriving DecidableEq, Repr

/-- An Answer as stored in the cache. -/
structure Answer where
  answer : List RRec
  authority : List RRec
  additional : List RRec
  rcode : Nat
  authenticated : Bool
deriving DecidableEq, Repr

/-- the constant year68 = 1 << 31 of cache.go. -/
def year68 : Int := 2 ^ 31

/-- Loop of minTTL.  The accumulator mirrors the Go pointer `min`
(none = nil).  The first record only seeds the minimum and `continue`s,
so its RRSIG branch is skipped.  Go int64 division truncates toward
zero, hence Int.tdiv. -/
def minTTLAux (now : Int) : Option Nat → List RRec → Nat
  | none, [] => 0
  | some m, [] => m
  | none, r :: rest => minTTLAux now (some r.ttl) rest
  | some m, r :: rest =>
    let m1 := if r.ttl < m then r.ttl else m
    let m2 :=
      if r.rrtype = TypeRRSIG then
        let md := Int.tdiv ((r.expiration : Int) - now) year68
        let t : Int := (r.expiration : Int) + md * year68
        let expiresIn := Int.tdiv (t - now) 1000000000
        if 0 < expiresIn ∧ expiresIn < 4294967295 ∧ expiresIn.toNat < m1 then
          expiresIn.toNat
        else m1
      else m1
    minTTLAux now (some m2) rest

/-- minTTL from cache.go, at clock time now. -/
def minTTL (a : List RRec) (now : Int) : Nat :=
  minTTLAux now none a

/-- Cache key: the (type, name) pair whose byte concatenation is
sha1-hashed by hashQuestion. -/
abbrev QKey := Nat × Str

/-- cacheEntry from cache.go (the mutex is concurrency plumbing and
has no sequential meaning). -/
structure CacheEntry where
  answer : Answer
  ttl : Nat
  modified : Int
  forever : Bool
deriving DecidableEq, Repr

/-- The cache map, as an association list with unique keys. -/
abbrev CacheState := List (QKey × CacheEntry)

/-- Map lookup. -/
def findEntry : CacheState → QKey → Option CacheEntry
  | [], _ => none
  | (k1, e) :: rest, k => if k1 = k then some e else findEntry rest k

/-- cacheEntry.update applied to the entry stored at a key: overwrite
answer, ttl and modified, leave forever untouched. -/
def updateEntry : CacheState → QKey → Answer → Nat → Int → CacheState
  | [], _, _, _, _ => []
  | (k1, e) :: rest, k, a, ttl, now =>
    if k1 = k then
      (k1, { e with answer := a, ttl := ttl, modified := now }) :: rest
    else
      (k1, e) :: updateEntry rest k a ttl now

/-- cacheEntry.expired at observation time now: a forever entry is
never expired, otherwise expired iff now is strictly after
modified + ttl seconds. -/
def expired (e : CacheEntry) (now : Int) : Bool :=
  if e.forever then false else decide (e.modified + (e.ttl : Int) < now)

/-- The local ttl variable of BasicCache.Add: 0 when forever,
otherwise minTTL over Answer ++ Additional ++ Authority. -/
def cacheTtl (a : Answer) (now : Int) (forever : Bool) : Nat :=
  if forever then 0 else minTTL (a.answer ++ (a.additional ++ a.authority)) now

/-- BasicCache.Add at clock time now.  A zero computed ttl with
forever = false drops the insert.  A present key is updated in place,
an absent key is inserted. -/
def cacheAdd (c : CacheState) (now : Int) (k : QKey) (a : Answer) (forever : Bool) :
    CacheState :=
  if forever = false ∧ cacheTtl a now forever = 0 then c
  else
    match findEntry c k with
    | some _ => updateEntry c k a (cacheTtl a now forever) now
    | none => c ++ [(k, ⟨a, cacheTtl a now forever, now, forever⟩)]

/-- BasicCache.fullPrune at clock time now: delete every expired entry. -/
def fullPrune (c : CacheState) (now : Int) : CacheState :=
  c.filter (fun p => !(expired p.2 now))

/-- BasicCache.Get. -/
def cacheGet (c : CacheState) (k : QKey) : Option Answer :=
  (findEntry c k).map (fun e => e.answer)

/-- A cache operation: an Add or a prune sweep, each at its own clock
time. -/
inductive CacheOp where
  | add (now : Int) (k : QKey) (a : Answer) (forever : Bool)
  | prune (now : Int)
deriving Repr

/-- Apply one cache operation. -/
def applyOp (c : CacheState) : CacheOp → CacheState
  | .add now k a forever => cacheAdd c now k a forever
  | .prune now => fullPrune c now

/-- Apply a sequence of cache operations. -/
def applyOps (c : CacheState) : List CacheOp → CacheState
  | [] => c
  | op :: rest => applyOps (applyOp c op) rest

/-!
Concrete inputs for the cache claims.
-/

/-- an A record with TTL 3600. -/
def recA3600 : RRec := ⟨TypeA, 3600, 0⟩

/-- an RRSIG with TTL 3600 expiring 100 seconds after the example
clock time 1700000000. -/
def recSig100 : RRec := ⟨TypeRRSIG, 3600, 1700000100⟩

/-- the example clock time for the minTTL evaluation. -/
def now0 : Int := 1700000000

/-- an answer whose records all have TTL 0. -/
def zeroTtlAnswer : Answer := ⟨[⟨TypeA, 0, 0⟩], [], [], 0, false⟩

/-- an answer with a single record of TTL 5. -/
def ttl5Answer : Answer := ⟨[⟨TypeA, 5, 0⟩], [], [], 0, true⟩

/-- an example cache key. -/
def kEx : QKey := (TypeA, "a.com.".data)

/-- a cache holding one non-forever entry at kEx. -/
def cacheWithEntry : CacheState := [(kEx, ⟨ttl5Answer, 5, 0, false⟩)]

end Cache

namespace Resolver

/-!
Embedding of resolver.go and dnssec.go.  Go strings are List Char.
External collaborators are oracles in an environment record:

* the DNS codec exchange (net),
* the shared question/answer cache Get (qcache; the asynchronous
  cache Adds fired during a lookup are not observed by Get within the
  same lookup in this model),
* the nested Lookup used by lookupNS for glue-less NS names (nsAddr;
  its exchanges are the nested NS-address lookups that the claims
  exclude from counting),
* the cryptographic primitives sig.Verify, sig.ValidityPeriod and
  DNSKEY.ToDS,
* the NSEC3 proof checkers of nsec.go, embedded separately in the
  Nsec namespace and abstracted here as boolean oracles.

Go map iteration order is unspecified; the random element the source
draws from a map range or with rand.Intn is modelled as the first
element in insertion order.
-/

/-- Go string as a list of characters. -/
abbrev Str := List Char

/-- strings.HasSuffix. -/
def hasSuffix (s suffix : Str) : Bool := suffix.isSuffixOf s

/-- strings.TrimSuffix. -/
def trimSuffix (s suffix : Str) : Str :=
  if hasSuffix s suffix then s.take (s.length - suffix.length) else s

/-- A resource record with the header fields and the type-specific
payload fields the resolver consults. -/
structure RRec where
  name : Str
  rrtype : Nat
  ttl : Nat := 0
  target : Str := []
  addr : Str := []
  flags : Nat := 0
  keytag : Nat := 0
  typeCovered : Nat := 0
  digestType : Nat := 0
  digest : Str := []
deriving DecidableEq, Repr

/-- A DNS IN question. -/
structure Question where
  name : Str
  qtype : Nat
deriving DecidableEq, Repr

/-- A DNS message: rcode and the three record sections. -/
structure Msg where
  rcode : Nat
  answer : List RRec
  ns : List RRec
  extra : List RRec
  truncated : Bool := false
deriving DecidableEq, Repr

/-- The Answer produced by Lookup. -/
structure Answer where
  answer : List RRec
  authority : List RRec
  additional : List RRec
  rcode : Nat
  authenticated : Bool
deriving DecidableEq, Repr

/-- An authoritative nameserver with the zone it is responsible for. -/
structure Nameserver where
  name : Str
  addr : Str
  zone : Str
deriving DecidableEq, Repr

/-- The error values of resolver.go and dnssec.go.  The distinct
NSEC proof errors of nsec.go are collapsed into DenialVerifyFailed
(the proofs themselves are verified in the Nsec namespace). -/
inductive RErr where
  | OutOfBailiwick
  | TooManyReferrals
  | NoNSAuthorities
  | NoAuthorityAddress
  | NetworkFailure
  | NoDNSKEY
  | BadAnswer
  | NoSignatures
  | RecordsMissingForSignature
  | MissingDNSKEY
  | SignatureInvalid
  | InvalidSignaturePeriod
  | MissingKSK
  | FailedToConvertKSK
  | MismatchingDS
  | DenialVerifyFailed
  | AliasLoop
  | DNAMETooLong
  | UnsignedDelegation
deriving DecidableEq, Repr

/-- extractRRSet: records of one of the given types, restricted to an
owner name when the name argument is nonempty. -/
def extractRRSet (rin : List RRec) (name : Str) (ts : List Nat) : List RRec :=
  rin.filter (fun r => ts.contains r.rrtype && (name.isEmpty || decide (name = r.name)))

/-- filterRRSet: records whose type is NOT among the given types. -/
def filterRRSet (rin : List RRec) (ts : List Nat) : List RRec :=
  rin.filter (fun r => !(ts.contains r.rrtype))

/-- allOfType. -/
def allOfType (a : List RRec) (t : Nat) : Bool :=
  a.all (fun r => decide (r.rrtype = t))

/-- Lookup in the cnameMap built by collapseCNAMEChain: a Go map
keyed by owner, later records overwriting earlier ones. -/
def cnameMapLookup (rin : List RRec) (owner : Str) : Option RRec :=
  rin.reverse.find? (fun r => decide (r.name = owner))

/-- Loop of collapseCNAMEChain.  The Go loop follows the map from
qname; on a cyclic chain it would not terminate, so the model carries
fuel one longer than the record list, enough for any acyclic chain. -/
def collapseCNAMEChainAux (rin : List RRec) :
    Nat → Str → Str → List RRec → Str × List RRec
  | 0, _, canonical, chased => (canonical, chased)
  | fuel + 1, qname, canonical, chased =>
    match cnameMapLookup rin qname with
    | none => (canonical, chased)
    | some c => collapseCNAMEChainAux rin fuel c.target c.target (chased ++ [c])

/-- collapseCNAMEChain from resolver.go. -/
def collapseCNAMEChain (qname : Str) (rin : List RRec) : Str × List RRec :=
  collapseCNAMEChainAux rin (rin.length + 1) qname [] []

/-- the maxDomainLength constant of resolver.go. -/
def maxDomainLength : Nat := 256

/-- isAlias from resolver.go: recognizes a CNAME answer, a collapsible
CNAME chain, or a DNAME ancestor alias, returning (ok, sname, chased
records, error).  A DNAME substitution longer than maxDomainLength
fails with DNAMETooLong. -/
def isAlias (answer : List RRec) (q : Question) :
    Bool × Str × List RRec × Option RErr :=
  let filtered := filterRRSet answer [TypeRRSIG]
  if filtered.length = 0 then (false, [], [], none)
  else if 1 < filtered.length then
    if ¬ (allOfType filtered TypeCNAME = true) ∨ q.qtype = TypeCNAME then
      (false, [], [], none)
    else
      let p := collapseCNAMEChain q.name filtered
      (true, p.1, p.2, none)
  else
    match filtered.head? with
    | none => (false, [], [], none)
    | some ali =>
      if ali.rrtype = TypeCNAME then
        if q.qtype = TypeCNAME ∨ q.name ≠ ali.name then (false, [], [], none)
        else (true, ali.target, [ali], none)
      else if ali.rrtype = TypeDNAME then
        if q.qtype = TypeDNAME then (false, [], [], none)
        else if ¬ (hasSuffix q.name ali.name = true) then (false, [], [], none)
        else
          let sname := trimSuffix q.name ali.name ++ ali.target
          if maxDomainLength < sname.length then (false, [], [], some .DNAMETooLong)
          else (true, sname, [ali], none)
      else (false, [], [], none)

/-- The keymap from keytag to DNSKEY record, a Go map modelled as an
association list with overwrite on insert. -/
abbrev KeyMap := List (Nat × RRec)

/-- Map insert with Go overwrite semantics. -/
def kmInsert : KeyMap → Nat → RRec → KeyMap
  | [], tag, r => [(tag, r)]
  | (t1, r1) :: rest, tag, r =>
    if t1 = tag then (t1, r) :: rest else (t1, r1) :: kmInsert rest tag r

/-- Map lookup. -/
def kmLookup : KeyMap → Nat → Option RRec
  | [], _ => none
  | (t1, r1) :: rest, tag => if t1 = tag then some r1 else kmLookup rest tag

/-- The keymap construction of lookupDNSKEY: every DNSKEY answer
record with flags 256 or 257 keyed by its keytag. -/
def buildKeyMap : List RRec → KeyMap → KeyMap
  | [], km => km
  | r :: rest, km =>
    if r.rrtype = TypeDNSKEY ∧ (r.flags = 256 ∨ r.flags = 257) then
      buildKeyMap rest (kmInsert km r.keytag r)
    else
      buildKeyMap rest km

/-- checkDS from dnssec.go, with DNSKEY.ToDS passed as a function:
scan the parent DS set in order, skip DS records whose keytag misses
the keymap, and at the first keytag hit convert the DNSKEY and compare
digests. -/
def checkDS (toDS : RRec → Nat → Option RRec) (km : KeyMap) :
    List RRec → Except RErr Unit
  | [] => .error .MissingKSK
  | ds :: rest =>
    match kmLookup km ds.keytag with
    | none => checkDS toDS km rest
    | some ksk =>
      match toDS ksk ds.digestType with
      | none => .error .FailedToConvertKSK
      | some d => if d.digest = ds.digest then .ok () else .error .MismatchingDS

/-- The environment of external collaborators of one resolver. -/
structure Env where
  root : Nameserver
  useIPv6 : Bool
  net : Question → Nameserver → Option Msg
  qcache : Question → Option Answer
  nsAddr : Str → Except RErr Str
  sigVerify : RRec → RRec → List RRec → Bool
  validInPeriod : RRec → Bool
  toDS : RRec → Nat → Option RRec
  denialNameError : Question → List RRec → Bool
  denialNodata : Question → List RRec → Bool
  denialDelegation : Str → List RRec → Bool

/-- The bailiwick check of query: every record of the answer and
authority sections other than OPT records must carry the zone as a
plain string suffix of its owner name. -/
def bailiwickOK (m : Msg) (zone : Str) : Bool :=
  [m.answer, m.ns].all
    (fun sec => sec.all (fun r => decide (r.rrtype = TypeOPT) || hasSuffix r.name zone))

/-- The outcome of query: the message, whether it came from the cache,
and for cache hits the cached authenticated flag. -/
structure QueryOut where
  msg : Msg
  cacheHit : Bool
  cachedValid : Bool
deriving DecidableEq, Repr

/-- query from resolver.go, paired with the number of upstream
exchanges it performs (0 on a cache hit, 1 otherwise): probe the
cache, otherwise exchange and enforce the bailiwick check. -/
def queryM (env : Env) (q : Question) (auth : Nameserver) :
    Except RErr QueryOut × Nat :=
  match env.qcache q with
  | some ans =>
    (.ok ⟨⟨0, ans.answer, ans.authority, ans.additional, false⟩, true, ans.authenticated⟩, 0)
  | none =>
    match env.net q auth with
    | none => (.error .NetworkFailure, 1)
    | some r =>
      if bailiwickOK r auth.zone then (.ok ⟨r, false, false⟩, 1)
      else (.error .OutOfBailiwick, 1)

/-- One signature loop of verifyRRSIG over the RRSIGs of a section. -/
def verifySigs (env : Env) (sec : List RRec) (km : KeyMap) :
    List RRec → Except RErr Unit
  | [] => .ok ()
  | sg :: rest =>
    let covered := extractRRSet sec sg.name [sg.typeCovered]
    if covered.isEmpty then .error .RecordsMissingForSignature
    else
      match kmLookup km sg.keytag with
      | none => .error .MissingDNSKEY
      | some key =>
        if ¬ (env.sigVerify key sg covered = true) then .error .SignatureInvalid
        else if ¬ (env.validInPeriod sg = true) then .error .InvalidSignaturePeriod
        else verifySigs env sec km rest

/-- verifyRRSIG over one section: empty sections are skipped, sections
with records but no RRSIGs fail with NoSignatures. -/
def verifySection (env : Env) (sec : List RRec) (km : KeyMap) : Except RErr Unit :=
  if sec.isEmpty then .ok ()
  else
    let sigs := extractRRSet sec [] [TypeRRSIG]
    if sigs.isEmpty then .error .NoSignatures
    else verifySigs env sec km sigs

/-- verifyRRSIG from dnssec.go over the answer and authority sections. -/
def verifyRRSIG (env : Env) (m : Msg) (km : KeyMap) : Except RErr Unit :=
  match verifySection env m.answer km with
  | .error e => .error e
  | .ok _ => verifySection env m.ns km

/-- lookupDNSKEY from dnssec.go, with its exchange count: query the
authority for its zone DNSKEY set, build the keymap, and when a parent
DS set exists verify the DNSKEY response and check the DS match. -/
def lookupDNSKEY (env : Env) (auth : Nameserver) (pds : List RRec) :
    Except RErr KeyMap × Nat :=
  let qr := queryM env ⟨auth.zone, TypeDNSKEY⟩ auth
  let c := qr.2
  match qr.1 with
  | .error e => (.error e, c)
  | .ok out =>
    let r := out.msg
    if r.answer.isEmpty then (.error .NoDNSKEY, c)
    else if r.rcode ≠ 0 then (.error .BadAnswer, c)
    else
      let km := buildKeyMap r.answer []
      if km.isEmpty then (.error .NoDNSKEY, c)
      else if ¬ pds.isEmpty then
        match verifyRRSIG env r km with
        | .error e => (.error e, c)
        | .ok _ =>
          match checkDS env.toDS km pds with
          | .error e => (.error e, c)
          | .ok _ => (.ok km, c)
      else (.ok km, c)

/-- checkSignatures from dnssec.go: fetch the zone keymap, then verify
the RRSIGs of the message under scrutiny. -/
def checkSignaturesM (env : Env) (m : Msg) (auth : Nameserver) (pds : List RRec) :
    Except RErr Unit × Nat :=
  let kr := lookupDNSKEY env auth pds
  match kr.1 with
  | .error e => (.error e, kr.2)
  | .ok km =>
    match verifyRRSIG env m km with
    | .error e => (.error e, kr.2)
    | .ok _ => (.ok (), kr.2)

/-- The zone-to-addresses map of splitAuthsByZone. -/
abbrev ZoneMap := List (Str × List Str)

/-- The nameserver-to-zone map of splitAuthsByZone. -/
abbrev NsMap := List (Str × Str)

/-- Go map assignment with overwrite. -/
def nsMapInsert : NsMap → Str → Str → NsMap
  | [], key, v => [(key, v)]
  | (k1, v1) :: rest, key, v =>
    if k1 = key then (k1, v) :: rest else (k1, v1) :: nsMapInsert rest key v

/-- Go map read. -/
def nsMapLookup : NsMap → Str → Option Str
  | [], _ => none
  | (k1, v1) :: rest, key => if k1 = key then some v1 else nsMapLookup rest key

/-- Go map append to a slice value (absent key starts a new slice). -/
def zoneMapAppend : ZoneMap → Str → Str → ZoneMap
  | [], z, a => [(z, [a])]
  | (z1, as1) :: rest, z, a =>
    if z1 = z then (z1, as1 ++ [a]) :: rest else (z1, as1) :: zoneMapAppend rest z a

/-- Go map read; a missing key reads as the empty slice. -/
def zoneMapLookup : ZoneMap → Str → List Str
  | [], _ => []
  | (z1, as1) :: rest, z => if z1 = z then as1 else zoneMapLookup rest z

/-- First loop of splitAuthsByZone: NS target to delegated zone. -/
def buildNsToZone : List RRec → NsMap → NsMap
  | [], m => m
  | r :: rest, m =>
    if r.rrtype = TypeNS then buildNsToZone rest (nsMapInsert m r.target r.name)
    else buildNsToZone rest m

/-- Second loop of splitAuthsByZone: glue addresses grouped by zone
(AAAA glue only when IPv6 is enabled). -/
def buildZones (nsToZone : NsMap) (useIPv6 : Bool) : List RRec → ZoneMap → ZoneMap
  | [], zs => zs
  | r :: rest, zs =>
    match nsMapLookup nsToZone r.name with
    | none => buildZones nsToZone useIPv6 rest zs
    | some zone =>
      if r.rrtype = TypeA ∨ (useIPv6 ∧ r.rrtype = TypeAAAA) then
        if r.rrtype = TypeA then
          buildZones nsToZone useIPv6 rest (zoneMapAppend zs zone r.addr)
        else if useIPv6 then
          buildZones nsToZone useIPv6 rest (zoneMapAppend zs zone r.addr)
        else buildZones nsToZone useIPv6 rest zs
      else buildZones nsToZone useIPv6 rest zs

/-- splitAuthsByZone from resolver.go. -/
def splitAuthsByZone (auths extras : List RRec) (useIPv6 : Bool) : ZoneMap × NsMap :=
  let nsToZone := buildNsToZone auths []
  (buildZones nsToZone useIPv6 extras [], nsToZone)

/-- The selection loop of pickAuthority when glue exists: the first
nameserver whose zone has at least one glue address (the source picks
a random map element and a random address; modelled as the first in
insertion order). -/
def pickFirstWithAddr (zones : ZoneMap) : NsMap → Except RErr Nameserver
  | [] => .error .NoNSAuthorities
  | (ns, z) :: rest =>
    match (zoneMapLookup zones z).head? with
    | some addr => .ok ⟨ns, addr, z⟩
    | none => pickFirstWithAddr zones rest

/-- pickAuthority from resolver.go: with no glue at all, resolve one
NS name through a nested Lookup (the nsAddr oracle); otherwise pick a
nameserver with glue. -/
def pickAuthority (env : Env) (auths extras : List RRec) : Except RErr Nameserver :=
  let p := splitAuthsByZone auths extras env.useIPv6
  if p.1.isEmpty then
    match p.2.head? with
    | none => .error .NoNSAuthorities
    | some (ns, z) =>
      match env.nsAddr ns with
      | .error e => .error e
      | .ok addr => .ok ⟨ns, addr, z⟩
  else pickFirstWithAddr p.1 p.2

/-- extractAnswer from resolver.go. -/
def extractAnswer (m : Msg) (validated : Bool) : Answer :=
  ⟨m.answer, m.ns, m.extra, m.rcode, validated⟩

/-- What one loop iteration decides after validation: return a final
result, chase an alias (restarting from a root), or follow a referral
to a child authority. -/
inductive StepOut where
  | done (res : Except RErr Answer)
  | chase (q2 : Question) (aliases2 : List Str) (chased2 : List RRec)
  | refer (auth2 : Nameserver) (pds2 : List RRec)

/-- The response classification of the Lookup loop body (resolver.go
lines after validation): nonzero rcode with an NXDOMAIN denial check,
alias detection and loop check, NODATA with denial check, and referral
with delegation check and parent DS update.  i is the iteration index,
used by the parent DS update rule. -/
def classifyResp (env : Env) (i : Nat) (q : Question) (aliases : List Str)
    (chased : List RRec) (pds : List RRec) (r : Msg) (validated : Bool) : StepOut :=
  if r.rcode ≠ 0 then
    if r.rcode = 3 then
      let nsecSet := extractRRSet r.ns [] [TypeNSEC3]
      if ¬ nsecSet.isEmpty ∧ ¬ (env.denialNameError q nsecSet = true) then
        .done (.error .DenialVerifyFailed)
      else .done (.ok (extractAnswer r validated))
    else .done (.ok (extractAnswer r validated))
  else if ¬ r.answer.isEmpty then
    match isAlias r.answer q with
    | (true, canonical, chasedRR, _) =>
      if aliases.contains canonical then .done (.error .AliasLoop)
      else .chase ⟨canonical, q.qtype⟩ (canonical :: aliases) (chased ++ chasedRR)
    | (false, _, _, some e) => .done (.error e)
    | (false, _, _, none) =>
      let ansRecs := if chased.isEmpty then r.answer else chased ++ r.answer
      .done (.ok ⟨ansRecs, r.ns, r.extra, r.rcode, validated⟩)
  else
    let nsecSet := extractRRSet r.ns [] [TypeNSEC3]
    if r.ns.isEmpty || decide (nsecSet.length = r.ns.length) then
      if ¬ nsecSet.isEmpty ∧ ¬ (env.denialNodata q nsecSet = true) then
        .done (.error .DenialVerifyFailed)
      else .done (.ok ⟨[], [], [], 0, validated⟩)
    else
      match pickAuthority env r.ns r.extra with
      | .error e => .done (.error e)
      | .ok auth2 =>
        let delErr : Option RErr :=
          if ¬ nsecSet.isEmpty then
            if env.denialDelegation auth2.zone nsecSet then none
            else some .DenialVerifyFailed
          else if ¬ pds.isEmpty then some .UnsignedDelegation
          else none
        match delErr with
        | some e => .done (.error e)
        | none =>
          .refer auth2
            (if i = 0 ∨ ¬ pds.isEmpty then extractRRSet r.ns auth2.zone [TypeDS] else [])

/-- The validation step of one loop iteration: run checkSignatures
when required, otherwise succeed without exchanging. -/
def sigStep (env : Env) (m : Msg) (auth : Nameserver) (pds : List RRec)
    (needSig : Bool) : Except RErr Unit × Nat :=
  if needSig then checkSignaturesM env m auth pds else (.ok (), 0)

/-- The Lookup iteration loop with MaxReferrals = k, on the remaining
iteration budget, paired with the number of upstream exchanges
performed (nested NS-address lookups behind the nsAddr oracle are not
counted).  Each iteration issues the main query, validates (fetching
DNSKEYs) when this is the first iteration or a parent DS set is known
and the response was not cached, then classifies. -/
def lookupLoop (env : Env) (k : Nat) :
    Nat → Question → Nameserver → List Str → List RRec → List RRec →
    Except RErr Answer × Nat
  | 0, _, _, _, _, _ => (.error .TooManyReferrals, 0)
  | rem + 1, q, auth, aliases, chased, pds =>
    let i := k - (rem + 1)
    let qr := queryM env q auth
    let c1 := qr.2
    match qr.1 with
    | .error e => (.error e, c1)
    | .ok out =>
      let needSig := (decide (i = 0) || !pds.isEmpty) && !out.cacheHit
      let sr := sigStep env out.msg auth pds needSig
      let c2 := sr.2
      match sr.1 with
      | .error e => (.error e, c1 + c2)
      | .ok _ =>
        let validated := needSig || (out.cacheHit && out.cachedValid)
        match classifyResp env i q aliases chased pds out.msg validated with
        | .done res => (res, c1 + c2)
        | .chase q2 al2 ch2 =>
          let lr := lookupLoop env k rem q2 env.root al2 ch2 pds
          (lr.1, c1 + c2 + lr.2)
        | .refer auth2 pds2 =>
          let lr := lookupLoop env k rem q auth2 aliases chased pds2
          (lr.1, c1 + c2 + lr.2)

/-- Lookup from resolver.go: start at a root nameserver with empty
alias set, chased list and parent DS set, with MaxReferrals = k. -/
def lookup (env : Env) (k : Nat) (q : Question) : Except RErr Answer × Nat :=
  lookupLoop env k k q env.root [] [] []

/-- A zone is a dot-anchored suffix of a name: the name is the zone
itself or ends with dot-zone. -/
def dotAnchoredSuffix (zone name : Str) : Bool :=
  decide (name = zone) || hasSuffix name ('.' :: zone)

/-!
Concrete inputs for the resolver claims.
-/

/-- a root nameserver (zone "."). -/
def rootNS : Nameserver := ⟨"a.root-servers.net.".data, "198.41.0.4".data, ".".data⟩

/-- A base environment: empty network and cache, permissive crypto
oracles, passing denial oracles. -/
def baseEnv : Env where
  root := rootNS
  useIPv6 := false
  net := fun _ _ => none
  qcache := fun _ => none
  nsAddr := fun _ => .error .NoAuthorityAddress
  sigVerify := fun _ _ _ => true
  validInPeriod := fun _ => true
  toDS := fun _ _ => none
  denialNameError := fun _ _ => true
  denialNodata := fun _ _ => true
  denialDelegation := fun _ _ => true

/-- question a.org. type A. -/
def q3 : Question := ⟨"a.org.".data, TypeA⟩

/-- NS record delegating org. to ns1.org. . -/
def nsOrg : RRec := { name := "org.".data, rrtype := TypeNS, target := "ns1.org.".data }

/-- RRSIG over the org. NS RRset, keytag 5. -/
def sigNS : RRec :=
  { name := "org.".data, rrtype := TypeRRSIG, typeCovered := TypeNS, keytag := 5 }

/-- glue A record for ns1.org. . -/
def glueNs1 : RRec := { name := "ns1.org.".data, rrtype := TypeA, addr := "192.0.2.1".data }

/-- root DNSKEY with flags 256 and keytag 5. -/
def dnskeyRoot : RRec := { name := ".".data, rrtype := TypeDNSKEY, flags := 256, keytag := 5 }

/-- an A record owned by xorg.: org. is a plain string suffix of the
owner but NOT a dot-anchored one. -/
def recXorg : RRec := { name := "xorg.".data, rrtype := TypeA, ttl := 60 }

/-- the referral response of the root for q3. -/
def referralMsg : Msg := ⟨0, [], [nsOrg, sigNS], [glueNs1], false⟩

/-- the DNSKEY response of the root. -/
def dnskeyMsg : Msg := ⟨0, [dnskeyRoot], [], [], false⟩

/-- the final response of the org. authority, answering with the
out-of-zone owner xorg. . -/
def finalMsg : Msg := ⟨0, [recXorg], [], [], false⟩

/-- the org. authority picked from the referral. -/
def authOrg : Nameserver := ⟨"ns1.org.".data, "192.0.2.1".data, "org.".data⟩

/-- environment for the bailiwick counterexample: the root refers q3
to org., whose authority answers with the xorg. record. -/
def envC3 : Env :=
  { baseEnv with
    net := fun q auth =>
      if q.qtype = TypeDNSKEY then some dnskeyMsg
      else if auth.zone = ".".data then some referralMsg
      else some finalMsg }

/-- question a. type A for the exchange-count counterexample. -/
def qC6 : Question := ⟨"a.".data, TypeA⟩

/-- the A answer record for a. . -/
def recA6 : RRec := { name := "a.".data, rrtype := TypeA, ttl := 60 }

/-- RRSIG over the a. A RRset, keytag 7. -/
def sigA6 : RRec :=
  { name := "a.".data, rrtype := TypeRRSIG, typeCovered := TypeA, keytag := 7 }

/-- root DNSKEY with flags 256 and keytag 7. -/
def dnskey6 : RRec := { name := ".".data, rrtype := TypeDNSKEY, flags := 256, keytag := 7 }

/-- environment for the exchange-count counterexample: the root
answers q directly with a signed answer, and serves its DNSKEY. -/
def envC6 : Env :=
  { baseEnv with
    net := fun q _ =>
      if q.qtype = TypeDNSKEY then some ⟨0, [dnskey6], [], [], false⟩
      else some ⟨0, [recA6, sigA6], [], [], false⟩ }

/-- a DNAME target of 254 octets. -/
def targetC7 : Str := List.replicate 253 'c' ++ ['.']

/-- DNAME record at owner b. with the long target. -/
def dname254 : RRec := { name := "b.".data, rrtype := TypeDNAME, target := targetC7 }

/-- question aab. type A; substituting the DNAME yields a 256-octet
sname. -/
def qC7 : Question := ⟨"aab.".data, TypeA⟩

/-- the substituted sname aa ++ target, 256 octets long. -/
def snameC7 : Str := "aa".data ++ targetC7

/-- the final A record at the substituted name. -/
def recFinalC7 : RRec := { name := snameC7, rrtype := TypeA, ttl := 60 }

/-- the expected final answer after the DNAME chase. -/
def ansC7 : Answer := ⟨[dname254, recFinalC7], [], [], 0, true⟩

/-- environment for the DNAME length counterexample: the cache holds
the DNAME answer for qC7 and an A answer for the substituted name. -/
def envC7 : Env :=
  { baseEnv with
    qcache := fun q =>
      if q = qC7 then some ⟨[dname254], [], [], 0, true⟩
      else if q = ⟨snameC7, TypeA⟩ then some ⟨[recFinalC7], [], [], 0, true⟩
      else none }

/-- an A record owned by x.com., not even a plain suffix match for
zone org. . -/
def recCom : RRec := { name := "x.com.".data, rrtype := TypeA, ttl := 60 }

/-- a response carrying the x.com. record. -/
def msgBad : Msg := ⟨0, [recCom], [], [], false⟩

/-- environment whose network always answers with msgBad. -/
def envBail : Env := { baseEnv with net := fun _ _ => some msgBad }

/-- a DNAME target of 256 octets, driving the substituted sname to
258 octets. -/
def targetC7w : Str := List.replicate 255 'c' ++ ['.']

/-- DNAME record at owner b. with the 256-octet target. -/
def dnameLong : RRec := { name := "b.".data, rrtype := TypeDNAME, target := targetC7w }

/-- question aab. type A for the over-long DNAME substitution. -/
def qC7w : Question := ⟨"aab.".data, TypeA⟩

/-- environment whose cache answers qC7w with the over-long DNAME. -/
def envC7w : Env :=
  { baseEnv with
    qcache := fun q =>
      if q = qC7w then some ⟨[dnameLong], [], [], 0, true⟩ else none }

/-- a KSK DNSKEY with keytag 12. -/
def kskEx : RRec := { name := "example.".data, rrtype := TypeDNSKEY, flags := 257, keytag := 12 }

/-- a parent DS with keytag 12, digest type 2 and digest cafe. -/
def dsEx : RRec :=
  { name := "example.".data, rrtype := TypeDS, keytag := 12, digestType := 2,
    digest := "cafe".data }

/-- the DS produced by converting kskEx with digest type 2. -/
def dsConv : RRec :=
  { name := "example.".data, rrtype := TypeDS, keytag := 12, digestType := 2,
    digest := "cafe".data }

/-- a ToDS oracle succeeding exactly on kskEx with digest type 2. -/
def toDSEx : RRec → Nat → Option RRec :=
  fun k dt => if k.keytag = 12 ∧ dt = 2 then some dsConv else none

/-- the keymap holding kskEx under keytag 12. -/
def kmEx : KeyMap := [(12, kskEx)]

end Resolver

end Solvere

namespace Solvere

namespace Nsec

/-- C1: on the RFC-valid name-error denial set (closest encloser
matched, next closer covered once, wildcard covered once) the
verifyNameError proof is claimed to succeed, but the code returns
ErrNSECMultipleCoverage: the accumulator in findCoverer is initialized
to a non-nil empty slice, so the very first cover of the wildcard
trips the multiple-coverage test. -/
theorem verifyNameError_valid_set_rejected :
    verifyNameError qOrg orgDenialSet = .error .MultipleCoverage := rfl

/-- C2: findMatching is claimed to return the bitmap of the unique
matching record and to fail when zero records match; the code instead
fails with ErrNSECMultipleCoverage on a single match and succeeds with
an empty bitmap on zero matches. -/
theorem findMatching_inverted :
    findMatching ["b", "com"] [recMatchB] = .error .MultipleCoverage ∧
    findMatching ["b", "com"] [] = .ok [] :=
  ⟨rfl, rfl⟩

end Nsec

namespace Cache

lemma findEntry_append_absent (c : CacheState) (k : QKey) (e : CacheEntry)
    (h : findEntry c k = none) : findEntry (c ++ [(k, e)]) k = some e := by
  induction c with
  | nil => simp [findEntry]
  | cons p rest ih =>
    obtain ⟨k1, e1⟩ := p
    by_cases hk : k1 = k
    · simp [findEntry, hk] at h
    · simpa [findEntry, hk] using ih (by simpa [findEntry, hk] using h)

lemma findEntry_append_of_found (c l : CacheState) (k : QKey) (e : CacheEntry)
    (h : findEntry c k = some e) : findEntry (c ++ l) k = some e := by
  induction c with
  | nil => simp [findEntry] at h
  | cons p rest ih =>
    obtain ⟨k1, e1⟩ := p
    by_cases hk : k1 = k
    · simp [findEntry, hk] at h ⊢; exact h
    · simpa [findEntry, hk] using ih (by simpa [findEntry, hk] using h)

lemma findEntry_updateEntry_self (c : CacheState) (k : QKey) (a : Answer)
    (ttl : Nat) (now : Int) (e : CacheEntry) (h : findEntry c k = some e) :
    findEntry (updateEntry c k a ttl now) k =
      some { e with answer := a, ttl := ttl, modified := now } := by
  induction c with
  | nil => simp [findEntry] at h
  | cons p rest ih =>
    obtain ⟨k1, e1⟩ := p
    by_cases hk : k1 = k
    · simp [findEntry, hk] at h
      simp [updateEntry, findEntry, hk, h]
    · simp [findEntry, hk] at h
      simp [updateEntry, findEntry, hk, ih h]

lemma findEntry_updateEntry_other (c : CacheState) (k k2 : QKey) (a : Answer)
    (ttl : Nat) (now : Int) (h : k2 ≠ k) :
    findEntry (updateEntry c k a ttl now) k2 = findEntry c k2 := by
  induction c with
  | nil => simp [updateEntry]
  | cons p rest ih =>
    obtain ⟨k1, e1⟩ := p
    by_cases hk : k1 = k
    · subst hk
      simp [updateEntry, findEntry, Ne.symm h]
    · simp [updateEntry, findEntry, hk]
      split <;> simp [ih]

lemma findEntry_filter (c : CacheState) (k : QKey) (e : CacheEntry)
    (p : QKey × CacheEntry → Bool) (h : findEntry c k = some e)
    (hp : p (k, e) = true) : findEntry (c.filter p) k = some e := by
  induction c with
  | nil => simp [findEntry] at h
  | cons q rest ih =>
    obtain ⟨k1, e1⟩ := q
    by_cases hk : k1 = k
    · subst hk
      simp [findEntry] at h
      subst h
      simp [List.filter, hp, findEntry]
    · simp [findEntry, hk] at h
      by_cases hq : p (k1, e1) = true
      · simpa [List.filter, hq, findEntry, hk] using ih h
      · simp only [List.filter, Bool.not_eq_true] at hq ⊢
        simpa [hq] using ih h

lemma expired_forever (e : CacheEntry) (t : Int) (h : e.forever = true) :
    expired e t = false := by
  simp [expired, h]

lemma forever_preserved_prune (c : CacheState) (k : QKey) (e : CacheEntry)
    (t : Int) (h : findEntry c k = some e) (hf : e.forever = true) :
    findEntry (fullPrune c t) k = some e :=
  findEntry_filter c k e _ h (by simp [expired_forever e t hf])

lemma forever_preserved_add (c : CacheState) (k : QKey) (e : CacheEntry)
    (now : Int) (k2 : QKey) (a : Answer) (f : Bool)
    (h : findEntry c k = some e) (hf : e.forever = true) :
    ∃ e2, findEntry (cacheAdd c now k2 a f) k = some e2 ∧ e2.forever = true := by
  unfold cacheAdd
  by_cases hguard : f = false ∧ cacheTtl a now f = 0
  · rw [if_pos hguard]
    exact ⟨e, h, hf⟩
  · rw [if_neg hguard]
    cases hfind : findEntry c k2 with
    | some e0 =>
      by_cases hk : k = k2
      · subst hk
        rw [h] at hfind
        cases hfind
        simp only
        exact ⟨_, findEntry_updateEntry_self c k a _ now e h, hf⟩
      · simp only
        exact ⟨e, by rw [findEntry_updateEntry_other c k2 k a _ now hk]; exact h, hf⟩
    | none =>
      simp only
      exact ⟨e, findEntry_append_of_found c _ k e h, hf⟩

lemma forever_preserved_ops (c : CacheState) (k : QKey) (e : CacheEntry)
    (ops : List CacheOp) (h : findEntry c k = some e) (hf : e.forever = true) :
    ∃ e2, findEntry (applyOps c ops) k = some e2 ∧ e2.forever = true := by
  induction ops generalizing c e with
  | nil => exact ⟨e, h, hf⟩
  | cons op rest ih =>
    cases op with
    | add now k2 a f =>
      obtain ⟨e2, h2, hf2⟩ := forever_preserved_add c k e now k2 a f h hf
      exact ih (applyOp c (.add now k2 a f)) e2 h2 hf2
    | prune t =>
      exact ih (applyOp c (.prune t)) e (forever_preserved_prune c k e t h hf) hf

/-- C5: an entry created by Add with forever = true never expires: at
every later observation time its expired check is false, the sweep
never deletes it, and no sequence of later Add or prune operations can
clear the forever flag (cacheEntry.update does not touch it). -/
theorem add_forever_entry_immortal (c : CacheState) (now : Int) (k : QKey)
    (a : Answer) (ops : List CacheOp) (t : Int) (h : findEntry c k = none) :
    ∃ e, findEntry (applyOps (cacheAdd c now k a true) ops) k = some e ∧
      e.forever = true ∧ expired e t = false ∧
      findEntry (fullPrune (applyOps (cacheAdd c now k a true) ops) t) k = some e := by
  have hadd : findEntry (cacheAdd c now k a true) k = some ⟨a, 0, now, true⟩ := by
    have h0 : cacheTtl a now true = 0 := rfl
    unfold cacheAdd
    rw [h, h0]
    simpa using findEntry_append_absent c k ⟨a, 0, now, true⟩ h
  obtain ⟨e, he, hf⟩ :=
    forever_preserved_ops (cacheAdd c now k a true) k ⟨a, 0, now, true⟩ ops hadd rfl
  exact ⟨e, he, hf, expired_forever e t hf,
    forever_preserved_prune _ k e t he hf⟩

/-- C5 witness: a concrete forever entry survives a later non-forever
Add on the same key and a prune sweep, unexpired. -/
theorem add_forever_entry_immortal_witness :
    ∃ e, findEntry (applyOps (cacheAdd [] 0 kEx ttl5Answer true)
        [.add 1 kEx zeroTtlAnswer false, .prune 1000000]) kEx = some e ∧
      e.forever = true ∧ expired e 1000000 = false ∧
      findEntry (fullPrune (applyOps (cacheAdd [] 0 kEx ttl5Answer true)
        [.add 1 kEx zeroTtlAnswer false, .prune 1000000]) 1000000) kEx = some e :=
  add_forever_entry_immortal [] 0 kEx ttl5Answer
    [.add 1 kEx zeroTtlAnswer false, .prune 1000000] 1000000 rfl

/-- C9: an Add with forever = false whose computed ttl is 0 stores
nothing (the cache is returned unchanged, and a previously absent key
still misses), the empty record set computes ttl 0, and any entry
reachable after a non-forever Add either predates the Add or was
written with ttl at least 1. -/
theorem add_zero_ttl_not_stored (c : CacheState) (now : Int) (k : QKey) (a : Answer) :
    (minTTL (a.answer ++ (a.additional ++ a.authority)) now = 0 →
      cacheAdd c now k a false = c ∧
      (findEntry c k = none → cacheGet (cacheAdd c now k a false) k = none)) ∧
    minTTL ([] : List RRec) now = 0 ∧
    (∀ e, findEntry (cacheAdd c now k a false) k = some e →
      findEntry c k = some e ∨ 1 ≤ e.ttl) := by
  have httl : cacheTtl a now false = minTTL (a.answer ++ (a.additional ++ a.authority)) now :=
    rfl
  refine ⟨?_, rfl, ?_⟩
  · intro h0
    have hc : cacheAdd c now k a false = c := by
      unfold cacheAdd
      rw [if_pos ⟨rfl, by rw [httl, h0]⟩]
    refine ⟨hc, ?_⟩
    intro habs
    rw [hc]
    simp [cacheGet, habs]
  · intro e he
    by_cases h0 : minTTL (a.answer ++ (a.additional ++ a.authority)) now = 0
    · left
      have hc : cacheAdd c now k a false = c := by
        unfold cacheAdd
        rw [if_pos ⟨rfl, by rw [httl, h0]⟩]
      rwa [hc] at he
    · right
      have hne : cacheTtl a now false ≠ 0 := by rw [httl]; exact h0
      unfold cacheAdd at he
      rw [if_neg (by rintro ⟨_, hz⟩; exact hne hz)] at he
      cases hfind : findEntry c k with
      | some e0 =>
        simp only [hfind] at he
        rw [findEntry_updateEntry_self c k a _ now e0 hfind] at he
        cases he
        simp only
        omega
      | none =>
        simp only [hfind] at he
        rw [findEntry_append_absent c k _ hfind] at he
        cases he
        simp only
        omega

/-- C9 witness: adding a zero-ttl answer to the empty cache stores
nothing and a Get still misses. -/
theorem add_zero_ttl_not_stored_witness :
    cacheAdd [] 7 kEx zeroTtlAnswer false = [] ∧
    cacheGet (cacheAdd [] 7 kEx zeroTtlAnswer false) kEx = none := by
  have h := (add_zero_ttl_not_stored [] 7 kEx zeroTtlAnswer).1 rfl
  exact ⟨h.1, h.2 rfl⟩

/-- C10 counterexample: an Add with forever = false whose computed ttl
is 0 on a key already present leaves the entry entirely untouched — in
particular its answer is not overwritten with the new answer, contrary
to the claim that every Add on a present key overwrites answer, ttl
and modified. -/
theorem add_present_key_no_update_on_zero_ttl :
    cacheAdd cacheWithEntry 1 kEx zeroTtlAnswer false = cacheWithEntry ∧
    findEntry cacheWithEntry kEx = some ⟨ttl5Answer, 5, 0, false⟩ ∧
    ttl5Answer ≠ zeroTtlAnswer :=
  ⟨rfl, rfl, by decide⟩

/-- C10 amended: an Add on a present key that actually stores
(forever = true, or computed ttl nonzero) updates the entry in place:
answer, ttl and modified are overwritten, the forever flag is kept,
and all other keys are untouched; an Add with forever = false and
computed ttl 0 leaves the cache unchanged (see the counterexample). -/
theorem add_present_key_updates_in_place (c : CacheState) (now : Int)
    (k : QKey) (a : Answer) (f : Bool) (e : CacheEntry)
    (h : findEntry c k = some e)
    (h2 : f = true ∨ minTTL (a.answer ++ (a.additional ++ a.authority)) now ≠ 0) :
    findEntry (cacheAdd c now k a f) k = some ⟨a, cacheTtl a now f, now, e.forever⟩ ∧
    ∀ k2, k2 ≠ k → findEntry (cacheAdd c now k a f) k2 = findEntry c k2 := by
  have hguard : ¬ (f = false ∧ cacheTtl a now f = 0) := by
    rcases h2 with h2 | h2
    · simp [h2]
    · rintro ⟨hf, hz⟩
      rw [hf] at hz
      simp only [cacheTtl, if_neg Bool.false_ne_true, Bool.false_eq_true, if_false] at hz
      exact h2 hz
  constructor
  · unfold cacheAdd
    rw [if_neg hguard]
    simp only [h]
    rw [findEntry_updateEntry_self c k a _ now e h]
  · intro k2 hk2
    unfold cacheAdd
    rw [if_neg hguard]
    simp only [h]
    exact findEntry_updateEntry_other c k k2 a _ now hk2

/-- C10 amended witness: an Add with forever = true over an existing
non-forever entry overwrites answer, ttl (with 0) and modified but
leaves the entry expirable (forever stays false). -/
theorem add_present_key_updates_in_place_witness :
    findEntry (cacheAdd cacheWithEntry 9 kEx zeroTtlAnswer true) kEx =
      some ⟨zeroTtlAnswer, 0, 9, false⟩ ∧
    ∀ k2, k2 ≠ kEx →
      findEntry (cacheAdd cacheWithEntry 9 kEx zeroTtlAnswer true) k2 =
        findEntry cacheWithEntry k2 := by
  have h := add_present_key_updates_in_place cacheWithEntry 9 kEx zeroTtlAnswer true
    ⟨ttl5Answer, 5, 0, false⟩ rfl (Or.inl rfl)
  exact h

/-- C4: at clock time 1700000000, a set holding an A record of TTL
3600 and an RRSIG of TTL 3600 expiring 100 seconds later is claimed to
yield ttl 100 (the signature expires in 100 seconds, less than 3600);
minTTL returns 3600 because it divides the seconds interval by 10^9
(treating it as nanoseconds), so the RRSIG override never fires. -/
theorem minTTL_rrsig_override_never_fires :
    minTTL [recA3600, recSig100] now0 = 3600 ∧
    (recSig100.expiration : Int) - now0 = 100 ∧ (100 : Nat) < 3600 :=
  ⟨rfl, rfl, by decide⟩

end Cache

end Solvere

namespace Solvere

namespace Resolver

lemma queryM_cost_le (env : Env) (q : Question) (auth : Nameserver) :
    (queryM env q auth).2 ≤ 1 := by
  unfold queryM
  rcases hc : env.qcache q with _ | ans
  · rcases hn : env.net q auth with _ | r
    · simp [hc, hn]
    · simp only [hc, hn]
      split <;> simp
  · simp [hc]

lemma lookupDNSKEY_cost_le (env : Env) (auth : Nameserver) (pds : List RRec) :
    (lookupDNSKEY env auth pds).2 ≤ 1 := by
  have h := queryM_cost_le env ⟨auth.zone, TypeDNSKEY⟩ auth
  simp only [lookupDNSKEY]
  rcases hq : (queryM env ⟨auth.zone, TypeDNSKEY⟩ auth).1 with e | out
  · simpa using h
  · repeat' split
    all_goals simpa using h

lemma checkSignaturesM_cost_le (env : Env) (m : Msg) (auth : Nameserver)
    (pds : List RRec) : (checkSignaturesM env m auth pds).2 ≤ 1 := by
  have h := lookupDNSKEY_cost_le env auth pds
  simp only [checkSignaturesM]
  rcases hq : (lookupDNSKEY env auth pds).1 with e | km
  · simpa using h
  · repeat' split
    all_goals simpa using h

lemma sigStep_cost_le (env : Env) (m : Msg) (auth : Nameserver) (pds : List RRec)
    (b : Bool) : (sigStep env m auth pds b).2 ≤ 1 := by
  cases b with
  | false => simp [sigStep]
  | true => simpa [sigStep] using checkSignaturesM_cost_le env m auth pds

lemma lookupLoop_cost_le (env : Env) (k : Nat) :
    ∀ rem q auth aliases chased pds,
      (lookupLoop env k rem q auth aliases chased pds).2 ≤ 2 * rem := by
  intro rem
  induction rem with
  | zero =>
    intro q auth aliases chased pds
    simp [lookupLoop]
  | succ rem ih =>
    intro q auth aliases chased pds
    have hq1 := queryM_cost_le env q auth
    simp only [lookupLoop]
    split
    · dsimp only
      omega
    · next out _ =>
      have hc2 := sigStep_cost_le env out.msg auth pds
      split
      · dsimp only
        exact le_trans (Nat.add_le_add hq1 (hc2 _)) (by omega)
      · split
        · dsimp only
          exact le_trans (Nat.add_le_add hq1 (hc2 _)) (by omega)
        · dsimp only
          exact le_trans (Nat.add_le_add (Nat.add_le_add hq1 (hc2 _)) (ih _ _ _ _ _))
            (by omega)
        · dsimp only
          exact le_trans (Nat.add_le_add (Nat.add_le_add hq1 (hc2 _)) (ih _ _ _ _ _))
            (by omega)

lemma bailiwickOK_iff (m : Msg) (zone : Str) :
    bailiwickOK m zone = true ↔
      ∀ rec, (rec ∈ m.answer ∨ rec ∈ m.ns) →
        rec.rrtype = TypeOPT ∨ hasSuffix rec.name zone = true := by
  simp only [bailiwickOK, List.all_cons, List.all_nil, Bool.and_true, Bool.and_eq_true,
    List.all_eq_true, Bool.or_eq_true, decide_eq_true_eq]
  constructor
  · rintro ⟨ha, hn⟩ rec hmem
    rcases hmem with hmem | hmem
    · exact ha rec hmem
    · exact hn rec hmem
  · intro h
    exact ⟨fun rec hmem => h rec (Or.inl hmem), fun rec hmem => h rec (Or.inr hmem)⟩

/-- C3 counterexample: a complete lookup run in which the org.
authority answers with a record owned by xorg. — the zone org. is a
plain string suffix of the owner but not a dot-anchored one — and the
lookup does not abort with OutOfBailiwick; it returns the record. -/
theorem lookup_accepts_non_dot_anchored_record :
    (lookup envC3 10 q3).1 = .ok ⟨[recXorg], [], [], 0, false⟩ ∧
    hasSuffix recXorg.name authOrg.zone = true ∧
    dotAnchoredSuffix authOrg.zone recXorg.name = false ∧
    recXorg.rrtype ≠ TypeOPT :=
  ⟨rfl, rfl, rfl, by decide⟩

/-- C3 amended: on a network response, query aborts the lookup with
OutOfBailiwick exactly when some non-OPT record of the answer or
authority section does not carry the zone as a PLAIN string suffix of
its owner (strings.HasSuffix, not dot-anchored). -/
theorem query_bailiwick_plain_suffix (env : Env) (q : Question) (auth : Nameserver)
    (r : Msg) (hc : env.qcache q = none) (hn : env.net q auth = some r) :
    ((∃ rec, (rec ∈ r.answer ∨ rec ∈ r.ns) ∧ rec.rrtype ≠ TypeOPT ∧
        hasSuffix rec.name auth.zone = false) →
      queryM env q auth = (.error .OutOfBailiwick, 1) ∧
      ∀ k rem aliases chased pds,
        lookupLoop env k (rem + 1) q auth aliases chased pds =
          (.error .OutOfBailiwick, 1)) ∧
    ((∀ rec, (rec ∈ r.answer ∨ rec ∈ r.ns) →
        rec.rrtype = TypeOPT ∨ hasSuffix rec.name auth.zone = true) →
      queryM env q auth = (.ok ⟨r, false, false⟩, 1)) := by
  constructor
  · rintro ⟨rec, hmem, hopt, hsuf⟩
    have hbw : bailiwickOK r auth.zone = false := by
      cases hb : bailiwickOK r auth.zone with
      | false => rfl
      | true =>
        rcases (bailiwickOK_iff r auth.zone).1 hb rec hmem with h | h
        · exact absurd h hopt
        · rw [h] at hsuf
          cases hsuf
    have hqm : queryM env q auth = (.error .OutOfBailiwick, 1) := by
      unfold queryM
      simp [hc, hn, hbw]
    refine ⟨hqm, ?_⟩
    intro k rem aliases chased pds
    simp only [lookupLoop, hqm]
  · intro hall
    have hbw := (bailiwickOK_iff r auth.zone).2 hall
    unfold queryM
    simp [hc, hn, hbw]

/-- C3 amended witness: a response with a record outside even the
plain-suffix bailiwick aborts the query and the lookup, while the
xorg. record of the counterexample environment passes the check. -/
theorem query_bailiwick_plain_suffix_witness :
    queryM envBail q3 authOrg = (.error .OutOfBailiwick, 1) ∧
    (lookupLoop envBail 10 1 q3 authOrg [] [] []).1 = .error .OutOfBailiwick ∧
    queryM envC3 q3 authOrg = (.ok ⟨finalMsg, false, false⟩, 1) := by
  have h1 := (query_bailiwick_plain_suffix envBail q3 authOrg msgBad rfl rfl).1
    ⟨recCom, Or.inl (by simp [msgBad]), by decide, rfl⟩
  have h2 := (query_bailiwick_plain_suffix envC3 q3 authOrg finalMsg rfl rfl).2 ?_
  · exact ⟨h1.1, by rw [h1.2 10 0 [] [] []], h2⟩
  · intro rec hmem
    rcases hmem with hmem | hmem
    · simp only [finalMsg] at hmem
      rw [List.mem_singleton] at hmem
      subst hmem
      right
      rfl
    · simp [finalMsg] at hmem

/-- C6 counterexample: with MaxReferrals = 1, a lookup that validates
its very first response performs 2 upstream exchanges (the question
query plus the DNSKEY fetch), exceeding the claimed bound of 1, while
still succeeding; no nested NS-address lookup is involved. -/
theorem lookup_dnskey_exchange_exceeds_budget :
    (lookup envC6 1 qC6).2 = 2 ∧ ¬ ((lookup envC6 1 qC6).2 ≤ 1) ∧
    (lookup envC6 1 qC6).1 = .ok ⟨[recA6, sigA6], [], [], 0, true⟩ :=
  ⟨rfl, by decide, rfl⟩

/-- C6 amended: the loop runs at most k iterations and each iteration
performs at most two upstream exchanges (the main query and at most
one DNSKEY fetch), so the exchanges excluding nested NS-address
lookups are at most 2k; an exhausted budget yields TooManyReferrals
with no Answer. -/
theorem lookup_exchange_bound (env : Env) (k : Nat) (q : Question) :
    (lookup env k q).2 ≤ 2 * k ∧
    (∀ q2 auth aliases chased pds,
      lookupLoop env k 0 q2 auth aliases chased pds = (.error .TooManyReferrals, 0)) ∧
    (lookup env 0 q).1 = .error .TooManyReferrals :=
  ⟨lookupLoop_cost_le env k k q env.root [] [] [], fun _ _ _ _ _ => rfl, rfl⟩

/-- C7 counterexample: a DNAME substitution producing a 256-octet
sname — which exceeds 255 octets — is NOT rejected: isAlias succeeds
with the substitution and the lookup chases it to a final answer
instead of failing with DNAMETooLong. -/
theorem dname_256_octet_sname_not_rejected :
    isAlias [dname254] qC7 = (true, snameC7, [dname254], none) ∧
    snameC7.length = 256 ∧ 255 < snameC7.length ∧
    (lookup envC7 10 qC7).1 = .ok ansC7 :=
  ⟨rfl, rfl, by decide, rfl⟩

/-- C7 amended: a DNAME substitution fails with DNAMETooLong exactly
when the substituted sname exceeds maxDomainLength = 256 octets (not
255); at or below 256 octets the substitution succeeds and resolution
continues with the new sname, and above it the lookup aborts with the
error. -/
theorem isAlias_dname_length_threshold (q : Question) (d : RRec)
    (hD : d.rrtype = TypeDNAME) (hq : q.qtype ≠ TypeDNAME)
    (hsuf : hasSuffix q.name d.name = true) :
    (isAlias [d] q =
      if maxDomainLength < (trimSuffix q.name d.name ++ d.target).length
      then (false, [], [], some .DNAMETooLong)
      else (true, trimSuffix q.name d.name ++ d.target, [d], none)) ∧
    (∀ env k rem auth aliases chased pds ans,
      env.qcache q = some ans → ans.answer = [d] →
      maxDomainLength < (trimSuffix q.name d.name ++ d.target).length →
      (lookupLoop env k (rem + 1) q auth aliases chased pds).1 =
        .error .DNAMETooLong) := by
  have hdr : ¬ (d.rrtype = TypeRRSIG) := by
    rw [hD]
    decide
  have hfil : filterRRSet [d] [TypeRRSIG] = [d] := by
    simp [filterRRSet, hdr]
  have hdc : ¬ (TypeDNAME = TypeCNAME) := by decide
  have hone : isAlias [d] q =
      if maxDomainLength < (trimSuffix q.name d.name ++ d.target).length
      then (false, [], [], some .DNAMETooLong)
      else (true, trimSuffix q.name d.name ++ d.target, [d], none) := by
    unfold isAlias
    rw [hfil]
    simp [hD, hdc, hq, hsuf]
  refine ⟨hone, ?_⟩
  intro env k rem auth aliases chased pds ans hcache hans hlen
  have hqm : queryM env q auth =
      (.ok ⟨⟨0, ans.answer, ans.authority, ans.additional, false⟩, true,
        ans.authenticated⟩, 0) := by
    unfold queryM
    simp [hcache]
  have hia : isAlias [d] q = (false, [], [], some .DNAMETooLong) := by
    rw [hone, if_pos hlen]
  have hcl : ∀ i validated,
      classifyResp env i q aliases chased pds
        ⟨0, [d], ans.authority, ans.additional, false⟩ validated =
        .done (.error .DNAMETooLong) := by
    intro i validated
    unfold classifyResp
    simp [hia]
  simp only [lookupLoop, hqm, hans]
  simp [sigStep, hcl]

/-- C7 amended witness: a substituted sname of 258 octets is rejected
by isAlias and aborts the lookup with DNAMETooLong. -/
theorem isAlias_dname_length_threshold_witness :
    isAlias [dnameLong] qC7w = (false, [], [], some .DNAMETooLong) ∧
    (lookupLoop envC7w 10 10 qC7w rootNS [] [] []).1 = .error .DNAMETooLong := by
  have h := isAlias_dname_length_threshold qC7w dnameLong rfl (by decide) rfl
  constructor
  · rw [h.1, if_pos (by decide)]
  · exact h.2 envC7w 10 9 rootNS [] [] [] ⟨[dnameLong], [], [], 0, true⟩ rfl rfl
      (by decide)

/-- C8: checkDS is decided by the first DS of the parent set whose
keytag is present in the keymap: MissingKSK when there is none,
FailedToConvertKSK when the DNSKEY does not convert under the digest
type of that DS, success when the converted digest is byte-equal, and
MismatchingDS when it differs. -/
theorem checkDS_first_keytag_decides (toDS : RRec → Nat → Option RRec)
    (km : KeyMap) (pds : List RRec) :
    (pds.find? (fun ds => (kmLookup km ds.keytag).isSome) = none →
      checkDS toDS km pds = .error .MissingKSK) ∧
    (∀ ds, pds.find? (fun ds => (kmLookup km ds.keytag).isSome) = some ds →
      ∀ ksk, kmLookup km ds.keytag = some ksk →
        (toDS ksk ds.digestType = none →
          checkDS toDS km pds = .error .FailedToConvertKSK) ∧
        (∀ d, toDS ksk ds.digestType = some d →
          (d.digest = ds.digest → checkDS toDS km pds = .ok ()) ∧
          (d.digest ≠ ds.digest → checkDS toDS km pds = .error .MismatchingDS))) := by
  induction pds with
  | nil =>
    refine ⟨fun _ => rfl, fun ds hds => ?_⟩
    simp at hds
  | cons ds0 rest ih =>
    by_cases h0 : (kmLookup km ds0.keytag).isSome = true
    · obtain ⟨ksk0, hksk0⟩ := Option.isSome_iff_exists.mp h0
      have hfind : (ds0 :: rest).find? (fun ds => (kmLookup km ds.keytag).isSome) =
          some ds0 := List.find?_cons_of_pos _ h0
      refine ⟨?_, ?_⟩
      · intro hnone
        rw [hfind] at hnone
        cases hnone
      · intro ds hds ksk hksk
        rw [hfind] at hds
        cases hds
        refine ⟨?_, ?_⟩
        · intro htds
          simp [checkDS, hksk, htds]
        · intro d htds
          refine ⟨fun heq => ?_, fun hne => ?_⟩
          · simp [checkDS, hksk, htds, heq]
          · simp [checkDS, hksk, htds, hne]
    · have h0n : kmLookup km ds0.keytag = none := by
        rcases hk : kmLookup km ds0.keytag with _ | v
        · rfl
        · rw [hk] at h0
          simp at h0
      have hfind : (ds0 :: rest).find? (fun ds => (kmLookup km ds.keytag).isSome) =
          rest.find? (fun ds => (kmLookup km ds.keytag).isSome) :=
        List.find?_cons_of_neg _ (by simp [h0n])
      have hck : checkDS toDS km (ds0 :: rest) = checkDS toDS km rest := by
        simp [checkDS, h0n]
      rw [hfind, hck]
      exact ih

/-- C8 witness: a parent DS whose keytag 12 is in the keymap and whose
digest matches the converted DNSKEY succeeds, and an empty parent DS
set fails with MissingKSK. -/
theorem checkDS_first_keytag_decides_witness :
    checkDS toDSEx kmEx [dsEx] = .ok () ∧
    checkDS toDSEx kmEx [] = .error .MissingKSK := by
  constructor
  · exact ((((checkDS_first_keytag_decides toDSEx kmEx [dsEx]).2 dsEx rfl) kskEx rfl).2
      dsConv rfl).1 rfl
  · exact (checkDS_first_keytag_decides toDSEx kmEx []).1 rfl

end Resolver

end Solvere
